import Mathlib

/-!
Shallow embedding of the LibriSeVoc API server (`server.py`): the
request-scoped audio-acquisition and bounded-execution pipeline of the
`/evaluate` route, together with the helper functions `allowed_file`,
`download_audio_from_url` and `run_evaluation`, and the stdout parsing
loop.  Python string primitives (`str.split`, `str.rsplit`, `str.strip`,
`str.lower`, the `in` substring test) are re-implemented structurally on
`List Char` so that all definitions reduce in the kernel.
-/

namespace LibriSeVoc

/-! ## Python string primitives on `List Char` -/

/-- Python whitespace characters recognised by `str.strip()`. -/
def isPyWs (c : Char) : Bool :=
  c = ' ' || c = '\t' || c = '\n' || c = '\r' || c = '\x0b' || c = '\x0c'

/-- `str.strip()`: drop leading and trailing whitespace. -/
def stripCh (l : List Char) : List Char :=
  ((l.dropWhile isPyWs).reverse.dropWhile isPyWs).reverse

/-- `s.strip()` at the `String` level. -/
def pyStrip (s : String) : String :=
  (stripCh s.toList).asString

/-- `s.split(sep)` for a single-character separator, with Python's
semantics (`"".split(c) = [""]`, empty pieces kept). -/
def splitChar (sep : Char) : List Char → List (List Char)
  | [] => [[]]
  | c :: rest =>
    if c = sep then [] :: splitChar sep rest
    else
      match splitChar sep rest with
      | [] => [[c]]
      | h :: t => (c :: h) :: t

/-- `output.strip().split('\n')` as a list of `String` lines. -/
def pyLines (s : String) : List String :=
  (splitChar '\n' (stripCh s.toList)).map List.asString

/-- Is `pat` a prefix of `l`? -/
def isPreCh : List Char → List Char → Bool
  | [], _ => true
  | _ :: _, [] => false
  | p :: ps, c :: cs => p = c && isPreCh ps cs

/-- Python's substring test `pat in l`. -/
def containsCh (pat : List Char) : List Char → Bool
  | [] => isPreCh pat []
  | c :: rest => isPreCh pat (c :: rest) || containsCh pat rest

/-- Python's substring test `pat in s` at the `String` level. -/
def pyIn (pat s : String) : Bool :=
  containsCh pat.toList s.toList

/-- First split of `l` at the two-character separator `": "`, returning
the parts before and after it, as used by `line.split(': ', 1)`. -/
def splitColonSp : List Char → Option (List Char × List Char)
  | [] => none
  | [_] => none
  | c1 :: c2 :: rest =>
    if c1 = ':' && c2 = ' ' then some ([], rest)
    else
      match splitColonSp (c2 :: rest) with
      | some (a, b) => some (c1 :: a, b)
      | none => none

/-! ## Configuration constants (`server.py` lines 34-39) -/

/-- `app.config MAX_CONTENT_LENGTH = 100 * 1024 * 1024`. -/
def MAX_CONTENT_LENGTH : Nat := 100 * 1024 * 1024

/-- `UPLOAD_FOLDER = 'uploads'`. -/
def UPLOAD_FOLDER : String := "uploads"

/-- `MODEL_PATH = 'model.pth'`. -/
def MODEL_PATH : String := "model.pth"

/-- `ALLOWED_EXTENSIONS = ('wav', 'mp3', 'flac', 'ogg', 'm4a')`, in the
order the source literal lists them. -/
def ALLOWED_EXTENSIONS : List String := ["wav", "mp3", "flac", "ogg", "m4a"]

/-- `', '.join(ALLOWED_EXTENSIONS)`. -/
def joinComma : List String → String
  | [] => ""
  | [s] => s
  | s :: rest => s ++ ", " ++ joinComma rest

/-! ## `allowed_file` (`server.py` lines 44-47) -/

/-- `filename.rsplit('.', 1)[1]`: the piece after the last dot, i.e. the
last element of `filename.split('.')`. -/
def extAfterLastDot (filename : String) : String :=
  ((splitChar '.' filename.toList).getLastD []).asString

/-- `s.lower()` (ASCII case folding as used on extensions). -/
def pyLower (s : String) : String :=
  (s.toList.map Char.toLower).asString

/-- The claim's own description of the extension, written from its
words rather than from the code: "the part after the last dot",
computed by reading the name from the right up to the first dot. -/
def specExtension (filename : String) : String :=
  ((filename.toList.reverse.takeWhile (fun c => decide (c ≠ '.'))).reverse).asString

/-- The claim's acceptance rule, written from its words: the filename
has a dot, and the part after the last dot, compared
case-insensitively, is in the allowed set. -/
def specAccepts (filename : String) : Bool :=
  filename.toList.contains '.'
    && ALLOWED_EXTENSIONS.contains (pyLower (specExtension filename))

/-- `allowed_file(filename)`: `'.' in filename and
filename.rsplit('.', 1)[1].lower() in ALLOWED_EXTENSIONS`. -/
def allowed_file (filename : String) : Bool :=
  containsCh ['.'] filename.toList
    && ALLOWED_EXTENSIONS.contains (pyLower (extAfterLastDot filename))

/-! ## Result interpreter (`server.py` lines 279-296) -/

/-- Marker substring for the multi-class line. -/
def multiMarker : String := "Multi classification result"

/-- Marker substring for the binary line. -/
def binaryMarker : String := "Binary classification result"

/-- Does the line contain the multi-class marker? -/
def hasMulti (line : String) : Bool := pyIn multiMarker line

/-- Does the line contain the binary marker? -/
def hasBinary (line : String) : Bool := pyIn binaryMarker line

/-- `line.split(': ', 1)[1] if ': ' in line else line`. -/
def extractVal (line : String) : String :=
  match splitColonSp line.toList with
  | some (_, after) => after.asString
  | none => line

/-- One iteration of the parsing loop (lines 290-294): the `elif` makes
the multi-class marker take precedence on a line containing both. -/
def parseStep (acc : Option String × Option String) (line : String) :
    Option String × Option String :=
  if hasMulti line then (some (extractVal line), acc.2)
  else if hasBinary line then (acc.1, some (extractVal line))
  else acc

/-- The whole `for line in lines` loop, starting from no fields set. -/
def interpretLines (lines : List String) : Option String × Option String :=
  lines.foldl parseStep (none, none)

/-! ## Filesystem model

The upload directory and any existing local files are a set of paths,
modelled as a duplicate-free list of strings.  `open(path, 'wb')` adds
the path, `os.remove(path)` removes it, `os.path.exists` is membership. -/

/-- Create a file (no-op if it already exists: `'wb'` truncates). -/
def insertPath (p : String) (fs : List String) : List String :=
  if p ∈ fs then fs else p :: fs

/-- `os.remove(p)`. -/
def removePath (p : String) (fs : List String) : List String :=
  fs.filter (fun q => decide (q ≠ p))

/-- Observable side effects of one request, in program order. -/
inductive Ev where
  /-- `file.save(audio_file_path)` completed (line 206). -/
  | fileSaved (p : String)
  /-- `open(local_path, 'wb')` created the download target (line 92). -/
  | fileCreated (p : String)
  /-- `os.remove(p)` (line 99 or line 267). -/
  | fileDeleted (p : String)
  /-- `cleanup_file = True` with `audio_file_path = p`: an owned
  artifact was successfully acquired (line 207 or line 233). -/
  | acquiredOwned (p : String)
  /-- `requests.get(url, ...)` was issued (line 77). -/
  | downloadStarted (url : String)
  /-- `subprocess.run(['python', 'eval.py', ...])` was launched with
  `--input_path p` (line 131). -/
  | evalStarted (p : String)
  /-- `processing_time = time.time() - start_time` executed (line 262). -/
  | durationMeasured
deriving DecidableEq, Repr

/-- Recognise an `os.remove p` event. -/
def isDeleteOf (p : String) : Ev → Bool
  | Ev.fileDeleted q => q = p
  | _ => false

/-- Recognise an evaluator launch on `p`. -/
def isEvalOf (p : String) : Ev → Bool
  | Ev.evalStarted q => q = p
  | _ => false

/-- Number of `os.remove p` events in a trace. -/
def delCount (p : String) (tr : List Ev) : Nat :=
  tr.countP (isDeleteOf p)

/-- Number of evaluator launches on `p` in a trace. -/
def evalCount (p : String) (tr : List Ev) : Nat :=
  tr.countP (isEvalOf p)

/-! ## Oracles for the outside world -/

/-- Outcome of `requests.get(url, stream=True)` followed by
`raise_for_status()`: either the stream (declared `content-length`
header if any, and the sizes of the chunks `iter_content` yields), a
transport/HTTP error, or a timeout. -/
inductive HttpResp where
  | ok (contentLength : Option Nat) (chunks : List Nat)
  | reqError (msg : String)
  | timeout
deriving DecidableEq

/-- Outcome of `subprocess.run(cmd, ..., timeout=300)`.
`completed` is a normal exit with the given return code and captured
streams; `timedOut` is `subprocess.TimeoutExpired`; `excInEval` is any
other `Exception` raised inside `run_evaluation`'s `try`;
`baseEscape` is an exception that is not an `Exception` subclass
(e.g. `KeyboardInterrupt` during the up-to-300 s wait), which escapes
both `run_evaluation`'s handlers and the route's `except Exception`. -/
inductive EvalResult where
  | completed (returncode : Int) (stdout stderr : String)
  | timedOut
  | excInEval (msg : String)
  | baseEscape
deriving DecidableEq

/-- Per-request environment: configuration state plus the behaviour of
the external collaborators.  `secureName` stands for werkzeug's
`secure_filename` and `urlFilename` for
`os.path.basename(urlparse(url).path)`, both library functions outside
this repository, kept abstract. -/
structure Env where
  modelExists : Bool
  fs0 : List String
  timestamp : Nat
  requestId : String
  secureName : String → String
  urlFilename : String → String
  httpGet : String → HttpResp
  evalRun : String → EvalResult

/-- Shape of the incoming request as the handler observes it:
`audio = some f` means `'audio' in request.files` with declared
filename `f`; `contentLength` is the total body size the framework
sees. -/
structure Req where
  contentLength : Nat
  audio : Option String
  isJson : Bool
  jsonUrl : Option String
  jsonFilename : Option String
deriving DecidableEq

/-- The JSON body the route builds (the fields the claims are about).
`status` is the HTTP status code, `statusLabel` the `'status'` JSON
field, `hasProcessingTime` whether `processing_time_seconds` is
included. -/
structure Resp where
  status : Nat
  statusLabel : Option String
  error : Option String
  raw_output : Option String
  multi : Option String
  binary : Option String
  hasProcessingTime : Bool
deriving DecidableEq, Repr

/-- A `400`-class client error body `({'error': msg, 'request_id': ...})`. -/
def clientErr (msg : String) : Resp :=
  ⟨400, none, some msg, none, none, none, false⟩

/-- A `500` server error body. -/
def serverErr (msg : String) : Resp :=
  ⟨500, none, some msg, none, none, none, false⟩

/-- How a request run ends: a response, or an exception that escaped
even the route's `except Exception` handler. -/
inductive Outcome where
  | resp (r : Resp)
  | uncaught
deriving DecidableEq

/-- Final state of one request run. -/
structure RunResult where
  outcome : Outcome
  fs : List String
  trace : List Ev
deriving DecidableEq

/-! ## `download_audio_from_url` (`server.py` lines 49-111) -/

/-- The chunk loop of lines 91-101: accumulate `total_size`, and the
moment it exceeds the cap close, `os.remove` the partial file and fail;
empty chunks are skipped by `if chunk:`. -/
def streamLoop (local_path : String) (total : Nat) :
    List Nat → List String → List Ev →
    (Option String × Option String) × List String × List Ev
  | [], fs, tr => ((some local_path, none), fs, tr)
  | c :: rest, fs, tr =>
    if c = 0 then streamLoop local_path total rest fs tr
    else if total + c > MAX_CONTENT_LENGTH then
      ((none, some "File too large. Maximum size is 100MB."),
        removePath local_path fs, tr ++ [Ev.fileDeleted local_path])
    else streamLoop local_path (total + c) rest fs tr

/-- The unique local name of lines 67-70 (and 202-205):
`uploads/{timestamp}_{request_id}_{secure_name}`. -/
def uniquePath (env : Env) (name : String) : String :=
  UPLOAD_FOLDER ++ "/" ++ Nat.repr env.timestamp ++ "_" ++ env.requestId
    ++ "_" ++ env.secureName name

/-- Lines 55-60: the filename taken from the URL path, or the generated
default `downloaded_audio_{request_id}.mp3` when it is empty or has no
dot. -/
def effectiveUrlName (env : Env) (url : String) : String :=
  let uf0 := env.urlFilename url
  if uf0 = "" || !containsCh ['.'] uf0.toList then
    "downloaded_audio_" ++ env.requestId ++ ".mp3"
  else uf0

/-- `download_audio_from_url(url, request_id)`: returns
`(local_path, None)` on success or `(None, error)` on failure, plus the
updated filesystem and trace. -/
def download_audio_from_url (env : Env) (url : String)
    (fs : List String) (tr : List Ev) :
    (Option String × Option String) × List String × List Ev :=
  let uf := effectiveUrlName env url
  if !allowed_file uf then
    ((none, some ("Invalid file type in URL. Allowed: "
      ++ joinComma ALLOWED_EXTENSIONS)), fs, tr)
  else
    let local_path := uniquePath env uf
    let tr := tr ++ [Ev.downloadStarted url]
    match env.httpGet url with
    | HttpResp.timeout =>
      ((none, some "Download timeout. URL took too long to respond."), fs, tr)
    | HttpResp.reqError m =>
      ((none, some ("Failed to download from URL: " ++ m)), fs, tr)
    | HttpResp.ok clen chunks =>
      if clen.getD 0 > MAX_CONTENT_LENGTH then
        ((none, some "File too large. Maximum size is 100MB."), fs, tr)
      else
        streamLoop local_path 0 chunks (insertPath local_path fs)
          (tr ++ [Ev.fileCreated local_path])

/-! ## `run_evaluation` (`server.py` lines 113-156) -/

/-- `run_evaluation(audio_file_path)` as a function of the subprocess
outcome: `some (output, error)` mirrors the Python return value, `none`
is an exception none of its `except` clauses catches. -/
def run_evaluation : EvalResult → Option (Option String × Option String)
  | EvalResult.completed rc out err =>
    if rc ≠ 0 then some (none, some ("Evaluation failed: " ++ err))
    else some (some out, none)
  | EvalResult.timedOut => some (none, some "Evaluation timed out after 5 minutes")
  | EvalResult.excInEval msg => some (none, some ("Error running evaluation: " ++ msg))
  | EvalResult.baseEscape => none

/-! ## The `/evaluate` route (`server.py` lines 168-306) -/

/-- Lines 279-296: build the success body — `raw_output` is
`output.strip()`, then the marker loop fills the optional fields. -/
def buildSuccessResponse (output : String) : Resp :=
  let fields := interpretLines (pyLines output)
  ⟨200, some "success", none, some (pyStrip output), fields.1, fields.2, true⟩

/-- Lines 259-299: the shared tail after acquisition — run the
evaluator, measure the duration, delete the owned artifact if it still
exists, then return either the error or the parsed success body.  When
the evaluator raises an uncatchable exception, the inline cleanup of
lines 264-270 never runs and the exception escapes the route. -/
def afterAcquire (env : Env) (path : String) (cleanup_file : Bool)
    (fs : List String) (tr : List Ev) : RunResult :=
  let tr := tr ++ [Ev.evalStarted path]
  match run_evaluation (env.evalRun path) with
  | none => ⟨Outcome.uncaught, fs, tr⟩
  | some (output, error) =>
    let tr := tr ++ [Ev.durationMeasured]
    let cleaned : List String × List Ev :=
      if cleanup_file && decide (path ∈ fs) then
        (removePath path fs, tr ++ [Ev.fileDeleted path])
      else (fs, tr)
    match error with
    | some e => ⟨Outcome.resp (serverErr e), cleaned.1, cleaned.2⟩
    | none =>
      ⟨Outcome.resp (buildSuccessResponse (output.getD "")), cleaned.1, cleaned.2⟩

/-- `evaluate_audio()` — the whole `/evaluate` handler.  The first
guard models the framework's enforcement of
`app.config MAX_CONTENT_LENGTH` (line 34): a body over the cap is
rejected with the `too_large` 413 handler (lines 323-329) before the
view function runs. -/
def evaluate_audio (env : Env) (req : Req) : RunResult :=
  if req.contentLength > MAX_CONTENT_LENGTH then
    ⟨Outcome.resp ⟨413, none, some "File too large. Maximum size is 100MB.",
      none, none, none, false⟩, env.fs0, []⟩
  else if env.modelExists = false then
    ⟨Outcome.resp (serverErr ("Model file not found: " ++ MODEL_PATH)),
      env.fs0, []⟩
  else
    match req.audio with
    | some fname =>
      if fname = "" then
        ⟨Outcome.resp (clientErr "No file selected"), env.fs0, []⟩
      else if allowed_file fname then
        let path := uniquePath env fname
        afterAcquire env path true (insertPath path env.fs0)
          [Ev.fileSaved path, Ev.acquiredOwned path]
      else
        ⟨Outcome.resp (clientErr ("Invalid file type. Allowed: "
          ++ joinComma ALLOWED_EXTENSIONS)), env.fs0, []⟩
    | none =>
      if req.isJson then
        match req.jsonUrl with
        | some url =>
          match download_audio_from_url env url env.fs0 [] with
          | ((p, some e), fs, tr) =>
            let _ := p
            ⟨Outcome.resp (clientErr e), fs, tr⟩
          | ((p, none), fs, tr) =>
            let path := p.getD ""
            afterAcquire env path true fs (tr ++ [Ev.acquiredOwned path])
        | none =>
          match req.jsonFilename with
          | some f =>
            if f ∈ env.fs0 then afterAcquire env f false env.fs0 []
            else ⟨Outcome.resp (clientErr ("File not found: " ++ f)), env.fs0, []⟩
          | none =>
            ⟨Outcome.resp (clientErr "Missing filename or url in request"),
              env.fs0, []⟩
      else
        ⟨Outcome.resp (clientErr
          "No audio file provided. Use file upload, JSON with filename, or JSON with URL."),
          env.fs0, []⟩

/-! ## Concrete instances used in witnesses and counterexamples -/

/-- A minimal environment: model present, empty upload directory, a
fixed request id, identity sanitisation, and the given evaluator
behaviour. -/
def baseEnv (er : EvalResult) : Env :=
  ⟨true, [], 0, "rid", fun s => s, fun s => s, fun _ => HttpResp.timeout,
    fun _ => er⟩

/-- An environment whose URL resolves to `song.mp3` and whose HTTP GET
behaves as given. -/
def dlEnv (h : HttpResp) (er : EvalResult) : Env :=
  ⟨true, [], 0, "rid", fun s => s, fun _ => "song.mp3", fun _ => h,
    fun _ => er⟩

/-- A multipart upload request with the given declared filename. -/
def upReq (f : String) : Req := ⟨10, some f, false, none, none⟩

/-- A JSON request carrying only a `url` field. -/
def urlReq : Req := ⟨10, none, true, some "http://x/song.mp3", none⟩

/-- A JSON request carrying both a `url` and a `filename` field. -/
def bothReq : Req := ⟨10, none, true, some "http://x/song.mp3", some "f.wav"⟩

/-- A JSON request carrying only a `filename` field. -/
def fileReq (f : String) : Req := ⟨10, none, true, none, some f⟩

/-! ## Lemmas about the result interpreter -/

theorem parseStep_multi (acc : Option String × Option String) (l : String)
    (h : hasMulti l = true) : parseStep acc l = (some (extractVal l), acc.2) := by
  simp [parseStep, h]

theorem parseStep_binary (acc : Option String × Option String) (l : String)
    (hm : hasMulti l = false) (hb : hasBinary l = true) :
    parseStep acc l = (acc.1, some (extractVal l)) := by
  simp [parseStep, hm, hb]

theorem parseStep_fst (acc : Option String × Option String) (l : String)
    (hm : hasMulti l = false) : (parseStep acc l).1 = acc.1 := by
  simp only [parseStep, hm, Bool.false_eq_true, if_false]
  split <;> rfl

theorem parseStep_snd (acc : Option String × Option String) (l : String)
    (h : hasMulti l = true ∨ hasBinary l = false) :
    (parseStep acc l).2 = acc.2 := by
  rcases h with h | h
  · simp [parseStep, h]
  · simp only [parseStep, h, Bool.false_eq_true, if_false]
    split <;> rfl

theorem foldl_parseStep_fst (L : List String) :
    ∀ acc : Option String × Option String,
      (∀ l ∈ L, hasMulti l = false) → (L.foldl parseStep acc).1 = acc.1 := by
  induction L with
  | nil => intro acc _; rfl
  | cons l rest ih =>
    intro acc h
    rw [List.foldl_cons]
    rw [ih (parseStep acc l) (fun x hx => h x (List.mem_cons_of_mem l hx))]
    exact parseStep_fst acc l (h l (List.mem_cons_self l rest))

theorem foldl_parseStep_snd (L : List String) :
    ∀ acc : Option String × Option String,
      (∀ l ∈ L, hasMulti l = true ∨ hasBinary l = false) →
      (L.foldl parseStep acc).2 = acc.2 := by
  induction L with
  | nil => intro acc _; rfl
  | cons l rest ih =>
    intro acc h
    rw [List.foldl_cons]
    rw [ih (parseStep acc l) (fun x hx => h x (List.mem_cons_of_mem l hx))]
    exact parseStep_snd acc l (h l (List.mem_cons_self l rest))

/-- The multi-class field is the extract of the last multi-marker
line, wherever it sits in the line list. -/
theorem interpretLines_fst_last (as bs : List String) (l1 : String)
    (h1 : hasMulti l1 = true) (hbs : ∀ l ∈ bs, hasMulti l = false) :
    (interpretLines (as ++ l1 :: bs)).1 = some (extractVal l1) := by
  unfold interpretLines
  rw [List.foldl_append, List.foldl_cons, parseStep_multi _ _ h1,
    foldl_parseStep_fst bs _ hbs]

/-- The binary field is the extract of the last line that sets it (a
binary-marker line not captured by the `elif`'s multi branch), wherever
it sits in the line list. -/
theorem interpretLines_snd_last (cs ds : List String) (l2 : String)
    (h2m : hasMulti l2 = false) (h2b : hasBinary l2 = true)
    (hds : ∀ l ∈ ds, hasMulti l = true ∨ hasBinary l = false) :
    (interpretLines (cs ++ l2 :: ds)).2 = some (extractVal l2) := by
  unfold interpretLines
  rw [List.foldl_append, List.foldl_cons, parseStep_binary _ _ h2m h2b,
    foldl_parseStep_snd ds _ hds]

/-! ## Lemmas about `splitChar` and the extension computation -/

theorem splitChar_ne_nil (c : Char) (l : List Char) : splitChar c l ≠ [] := by
  cases l with
  | nil => simp [splitChar]
  | cons a as =>
    unfold splitChar
    split
    · simp
    · split <;> simp

theorem splitChar_of_not_mem (c : Char) (l : List Char) (h : c ∉ l) :
    splitChar c l = [l] := by
  induction l with
  | nil => rfl
  | cons a as ih =>
    have hac : ¬(a = c) := fun hh => h (hh ▸ List.mem_cons_self a as)
    have has : c ∉ as := fun hh => h (List.mem_cons_of_mem a hh)
    unfold splitChar
    rw [if_neg hac, ih has]

theorem length_splitChar (c : Char) (l : List Char) :
    (splitChar c l).length = l.count c + 1 := by
  induction l with
  | nil => rfl
  | cons a as ih =>
    unfold splitChar
    by_cases hac : a = c
    · rw [if_pos hac, List.length_cons, ih, List.count_cons]
      simp [hac]
    · rw [if_neg hac]
      cases hS : splitChar c as with
      | nil => exact absurd hS (splitChar_ne_nil c as)
      | cons h t =>
        have : (h :: t).length = as.count c + 1 := hS ▸ ih
        rw [List.length_cons] at this ⊢
        rw [List.count_cons, if_neg (by simp [hac])]
        omega

theorem getLastD_indep {α : Type} (t : List α) (x y : α) (h : t ≠ []) :
    t.getLastD x = t.getLastD y := by
  cases t with
  | nil => exact absurd rfl h
  | cons b l => rw [List.getLastD_cons, List.getLastD_cons]

theorem takeWhile_eq_self_of_forall {α : Type} (p : α → Bool) (l : List α)
    (h : ∀ x ∈ l, p x = true) : l.takeWhile p = l := by
  induction l with
  | nil => rfl
  | cons a as ih =>
    rw [List.takeWhile_cons, if_pos (h a (List.mem_cons_self a as)),
      ih (fun x hx => h x (List.mem_cons_of_mem a hx))]

/-- The piece Python's `rsplit('.', 1)` takes after the last separator
is exactly what the spec describes: read the name from the right up to
the first separator character. -/
theorem getLastD_splitChar (c : Char) (l : List Char) :
    (splitChar c l).getLastD [] =
      ((l.reverse.takeWhile (fun x => decide (x ≠ c))).reverse) := by
  induction l with
  | nil => rfl
  | cons a as ih =>
    have hpc : (fun x => decide (x ≠ c)) c = false := by simp
    rw [List.reverse_cons]
    by_cases hac : a = c
    · subst hac
      unfold splitChar
      rw [if_pos rfl, List.getLastD_cons, ih, List.takeWhile_append]
      split
      · rename_i hfull
        have hself : as.reverse.takeWhile (fun x => decide (x ≠ a)) = as.reverse :=
          (List.takeWhile_prefix _).eq_of_length hfull
        rw [hself]
        simp
      · rfl
    · unfold splitChar
      rw [if_neg hac]
      by_cases hmem : c ∈ as
      · cases hS : splitChar c as with
        | nil => exact absurd hS (splitChar_ne_nil c as)
        | cons h t =>
          have hlen : (h :: t).length = as.count c + 1 := hS ▸ length_splitChar c as
          have hcpos : 0 < as.count c := List.count_pos_iff.mpr hmem
          have ht : t ≠ [] := by
            intro he
            rw [he] at hlen
            simp at hlen
            omega
          have lhs_eq : ((a :: h) :: t).getLastD [] = (splitChar c as).getLastD [] := by
            rw [hS, List.getLastD_cons, List.getLastD_cons]
            exact getLastD_indep t (a :: h) h ht
          rw [lhs_eq, ih, List.takeWhile_append]
          have hnotfull :
              ¬ (as.reverse.takeWhile (fun x => decide (x ≠ c))).length = as.reverse.length := by
            intro hfull
            have hself : as.reverse.takeWhile (fun x => decide (x ≠ c)) = as.reverse :=
              (List.takeWhile_prefix _).eq_of_length hfull
            have hc : c ∈ as.reverse.takeWhile (fun x => decide (x ≠ c)) := by
              rw [hself]
              exact List.mem_reverse.mpr hmem
            have := List.mem_takeWhile_imp hc
            simp at this
          rw [if_neg hnotfull]
      · rw [splitChar_of_not_mem c as hmem]
        have hall : ∀ x ∈ as.reverse, (fun x => decide (x ≠ c)) x = true := by
          intro x hx
          simp only [decide_eq_true_eq]
          intro he
          exact hmem (he ▸ List.mem_reverse.mp hx)
        rw [List.takeWhile_append, takeWhile_eq_self_of_forall _ _ hall, if_pos rfl,
          List.takeWhile_cons, if_pos (by simp [hac]), List.takeWhile_nil,
          List.reverse_append, List.reverse_reverse]
        rfl

theorem containsCh_single (c : Char) (l : List Char) :
    containsCh [c] l = l.contains c := by
  induction l with
  | nil => rfl
  | cons a as ih =>
    simp only [containsCh, isPreCh, List.contains_cons, ← ih, Bool.and_true]
    by_cases hca : c = a
    · subst hca
      simp
    · have h2 : (c == a) = false := beq_eq_false_iff_ne.mpr hca
      simp [hca, h2]

/-- The code's acceptance test coincides with the spec's description
of it. -/
theorem allowed_file_eq_specAccepts (f : String) :
    allowed_file f = specAccepts f := by
  unfold allowed_file specAccepts
  rw [containsCh_single]
  have : extAfterLastDot f = specExtension f := by
    unfold extAfterLastDot specExtension
    rw [getLastD_splitChar]
  rw [this]

/-! ## Lemmas about the filesystem model and traces -/

theorem mem_insertPath (q p : String) (fs : List String) :
    q ∈ insertPath p fs ↔ q = p ∨ q ∈ fs := by
  unfold insertPath
  split
  · rename_i h
    constructor
    · exact Or.inr
    · rintro (rfl | hq)
      · exact h
      · exact hq
  · exact List.mem_cons

theorem mem_insertPath_self (p : String) (fs : List String) :
    p ∈ insertPath p fs := (mem_insertPath p p fs).mpr (Or.inl rfl)

theorem mem_removePath (q p : String) (fs : List String) :
    q ∈ removePath p fs ↔ q ∈ fs ∧ q ≠ p := by
  unfold removePath
  rw [List.mem_filter]
  simp

theorem not_mem_removePath_self (p : String) (fs : List String) :
    p ∉ removePath p fs := by
  intro h
  exact ((mem_removePath p p fs).mp h).2 rfl

theorem delCount_append (p : String) (a b : List Ev) :
    delCount p (a ++ b) = delCount p a + delCount p b := by
  unfold delCount
  exact List.countP_append _ a b

theorem evalCount_append (p : String) (a b : List Ev) :
    evalCount p (a ++ b) = evalCount p a + evalCount p b := by
  unfold evalCount
  exact List.countP_append _ a b

theorem run_evaluation_ne_none (r : EvalResult) (h : r ≠ EvalResult.baseEscape) :
    run_evaluation r ≠ none := by
  cases r with
  | completed rc out err =>
    simp only [run_evaluation]
    split <;> simp
  | timedOut => simp [run_evaluation]
  | excInEval msg => simp [run_evaluation]
  | baseEscape => exact absurd rfl h

/-! ## Lemmas about `afterAcquire` -/

/-- With `cleanup_file` set, a live artifact, and an evaluation that
does not raise uncatchably, the shared tail deletes the artifact
exactly once and returns a response. -/
theorem afterAcquire_cleanup (env : Env) (path : String)
    (fs : List String) (tr : List Ev)
    (hrun : run_evaluation (env.evalRun path) ≠ none)
    (hmem : path ∈ fs) :
    (afterAcquire env path true fs tr).fs = removePath path fs ∧
    (afterAcquire env path true fs tr).trace =
      tr ++ [Ev.evalStarted path, Ev.durationMeasured, Ev.fileDeleted path] ∧
    (afterAcquire env path true fs tr).outcome ≠ Outcome.uncaught := by
  unfold afterAcquire
  cases hr : run_evaluation (env.evalRun path) with
  | none => exact absurd hr hrun
  | some v =>
    obtain ⟨o, e⟩ := v
    cases e with
    | none => simp [hmem]
    | some msg => simp [hmem]

/-- Without `cleanup_file` the shared tail never touches the
filesystem and never emits a deletion, on any evaluation outcome
including an uncatchable exception. -/
theorem afterAcquire_nocleanup (env : Env) (path : String)
    (fs : List String) (tr : List Ev) :
    (afterAcquire env path false fs tr).fs = fs ∧
    ∀ p : String,
      delCount p (afterAcquire env path false fs tr).trace = delCount p tr := by
  unfold afterAcquire
  cases hr : run_evaluation (env.evalRun path) with
  | none =>
    refine ⟨rfl, fun p => ?_⟩
    simp [delCount_append, delCount, isDeleteOf]
  | some v =>
    obtain ⟨o, e⟩ := v
    cases e with
    | none =>
      refine ⟨rfl, fun p => ?_⟩
      simp [delCount_append, delCount, isDeleteOf]
    | some msg =>
      refine ⟨rfl, fun p => ?_⟩
      simp [delCount_append, delCount, isDeleteOf]

/-- The shared tail only appends to the entry trace. -/
theorem afterAcquire_trace_append (env : Env) (path : String) (c : Bool)
    (fs : List String) (tr : List Ev) :
    ∃ s : List Ev, (afterAcquire env path c fs tr).trace = tr ++ s := by
  unfold afterAcquire
  cases hr : run_evaluation (env.evalRun path) with
  | none => exact ⟨[Ev.evalStarted path], rfl⟩
  | some v =>
    obtain ⟨o, er⟩ := v
    by_cases hcl : (c && decide (path ∈ fs)) = true
    · cases er with
      | none =>
        refine ⟨[Ev.evalStarted path, Ev.durationMeasured, Ev.fileDeleted path], ?_⟩
        simp [hcl]
      | some msg =>
        refine ⟨[Ev.evalStarted path, Ev.durationMeasured, Ev.fileDeleted path], ?_⟩
        simp [hcl]
    · cases er with
      | none =>
        refine ⟨[Ev.evalStarted path, Ev.durationMeasured], ?_⟩
        simp [hcl]
      | some msg =>
        refine ⟨[Ev.evalStarted path, Ev.durationMeasured], ?_⟩
        simp [hcl]

/-- Events already in the trace survive the shared tail. -/
theorem afterAcquire_trace_mem (env : Env) (path : String) (c : Bool)
    (fs : List String) (tr : List Ev) (e : Ev) (he : e ∈ tr) :
    e ∈ (afterAcquire env path c fs tr).trace := by
  obtain ⟨s, hs⟩ := afterAcquire_trace_append env path c fs tr
  rw [hs]
  exact List.mem_append_left _ he

/-! ## Lemmas about the download stream loop -/

/-- A successful stream leaves the filesystem and trace exactly as they
were at loop entry and returns the target path. -/
theorem streamLoop_success (p : String) :
    ∀ (chunks : List Nat) (total : Nat) (fs fs' : List String)
      (tr tr' : List Ev) (q : String) (e : Option String),
      streamLoop p total chunks fs tr = ((some q, e), fs', tr') →
      q = p ∧ e = none ∧ fs' = fs ∧ tr' = tr := by
  intro chunks
  induction chunks with
  | nil =>
    intro total fs fs' tr tr' q e h
    unfold streamLoop at h
    injection h with h1 h2
    injection h1 with ha hb
    injection ha with ha
    injection h2 with h2a h2b
    exact ⟨ha.symm, hb.symm, h2a.symm, h2b.symm⟩
  | cons c rest ih =>
    intro total fs fs' tr tr' q e h
    unfold streamLoop at h
    by_cases hc : c = 0
    · rw [if_pos hc] at h
      exact ih total fs fs' tr tr' q e h
    · rw [if_neg hc] at h
      by_cases hov : total + c > MAX_CONTENT_LENGTH
      · rw [if_pos hov] at h
        injection h with h1 _
        injection h1 with ha _
        cases ha
      · rw [if_neg hov] at h
        exact ih (total + c) fs fs' tr tr' q e h

/-- Once the running total would exceed the cap, the loop removes the
partial file and fails with the FileTooLarge message. -/
theorem streamLoop_overflow (p : String) :
    ∀ (chunks : List Nat) (total : Nat) (fs : List String) (tr : List Ev),
      total ≤ MAX_CONTENT_LENGTH →
      MAX_CONTENT_LENGTH < total + chunks.sum →
      streamLoop p total chunks fs tr =
        ((none, some "File too large. Maximum size is 100MB."),
          removePath p fs, tr ++ [Ev.fileDeleted p]) := by
  intro chunks
  induction chunks with
  | nil =>
    intro total fs tr h1 h2
    simp at h2
    omega
  | cons c rest ih =>
    intro total fs tr h1 h2
    rw [List.sum_cons] at h2
    unfold streamLoop
    by_cases hc : c = 0
    · rw [if_pos hc]
      subst hc
      exact ih total fs tr h1 (by omega)
    · rw [if_neg hc]
      by_cases hov : total + c > MAX_CONTENT_LENGTH
      · rw [if_pos hov]
      · rw [if_neg hov]
        exact ih (total + c) fs tr (by omega) (by omega)

/-- A successful download created exactly its reported path: the path
is on disk, and nothing was deleted along the way. -/
theorem download_success (env : Env) (url : String)
    (fs fs' : List String) (tr tr' : List Ev) (p : String)
    (h : download_audio_from_url env url fs tr = ((some p, none), fs', tr')) :
    p ∈ fs' ∧ (∀ q : String, delCount q tr' = delCount q tr) ∧
    fs' = insertPath p fs := by
  unfold download_audio_from_url at h
  by_cases hal : (!allowed_file (effectiveUrlName env url)) = true
  · rw [if_pos hal] at h
    injection h with h1 _
    injection h1 with ha _
    cases ha
  · rw [if_neg hal] at h
    cases hg : env.httpGet url with
    | timeout =>
      rw [hg] at h
      injection h with h1 _
      injection h1 with ha _
      cases ha
    | reqError m =>
      rw [hg] at h
      injection h with h1 _
      injection h1 with ha _
      cases ha
    | ok clen chunks =>
      rw [hg] at h
      simp only [] at h
      by_cases hcl : clen.getD 0 > MAX_CONTENT_LENGTH
      · rw [if_pos hcl] at h
        injection h with h1 _
        injection h1 with ha _
        cases ha
      · rw [if_neg hcl] at h
        obtain ⟨hq, _, hfs, htr⟩ :=
          streamLoop_success _ chunks 0 _ fs' _ tr' p none h
        subst hq
        subst hfs
        subst htr
        refine ⟨mem_insertPath_self _ _, fun q => ?_, rfl⟩
        simp [delCount_append, delCount, isDeleteOf]

/-! ## Branch reductions of the `/evaluate` handler -/

/-- The handler on a valid upload reduces to the shared tail on the
freshly saved owned artifact. -/
theorem evaluate_audio_upload (env : Env) (req : Req) (f : String)
    (hcl : req.contentLength ≤ MAX_CONTENT_LENGTH)
    (hm : env.modelExists = true) (ha : req.audio = some f)
    (hne : f ≠ "") (hok : allowed_file f = true) :
    evaluate_audio env req =
      afterAcquire env (uniquePath env f) true
        (insertPath (uniquePath env f) env.fs0)
        [Ev.fileSaved (uniquePath env f), Ev.acquiredOwned (uniquePath env f)] := by
  unfold evaluate_audio
  rw [if_neg (by omega)]
  rw [if_neg (by simp [hm])]
  rw [ha]
  simp only []
  rw [if_neg hne, if_pos hok]

/-- The handler on an invalid-extension upload returns the
InvalidFileType client error with no side effects. -/
theorem evaluate_audio_badtype (env : Env) (req : Req) (f : String)
    (hcl : req.contentLength ≤ MAX_CONTENT_LENGTH)
    (hm : env.modelExists = true) (ha : req.audio = some f)
    (hne : f ≠ "") (hbad : allowed_file f = false) :
    evaluate_audio env req =
      ⟨Outcome.resp (clientErr ("Invalid file type. Allowed: "
        ++ joinComma ALLOWED_EXTENSIONS)), env.fs0, []⟩ := by
  unfold evaluate_audio
  rw [if_neg (by omega)]
  rw [if_neg (by simp [hm])]
  rw [ha]
  simp only []
  rw [if_neg hne, if_neg (by simp [hbad])]

/-- The handler on a URL request whose download succeeds reduces to the
shared tail on the downloaded owned artifact. -/
theorem evaluate_audio_url_success (env : Env) (req : Req) (url p : String)
    (fs' : List String) (tr' : List Ev)
    (hcl : req.contentLength ≤ MAX_CONTENT_LENGTH)
    (hm : env.modelExists = true) (ha : req.audio = none)
    (hj : req.isJson = true) (hu : req.jsonUrl = some url)
    (hd : download_audio_from_url env url env.fs0 [] = ((some p, none), fs', tr')) :
    evaluate_audio env req =
      afterAcquire env p true fs' (tr' ++ [Ev.acquiredOwned p]) := by
  unfold evaluate_audio
  rw [if_neg (by omega)]
  rw [if_neg (by simp [hm])]
  rw [ha]
  simp only []
  rw [if_pos hj, hu]
  simp only []
  rw [hd]
  rfl

/-! ## Claim C4 -/

/-- C4 (amended): for a stdout whose stripped line list contains a
multi-marker line `l1` that is the last such line, and a binary-setting
line `l2` (a binary-marker line the `elif` does not divert to the multi
branch) that is the last such line — in either order relative to each
other — the interpreter returns the text after the first `": "` of each
(`extractVal` falls back to the whole line when the separator is
absent), and `raw_output` equals the stdout with leading and trailing
whitespace stripped — not the full original text. -/
theorem interpreter_marker_extraction (out : String)
    (as bs cs ds : List String) (l1 l2 : String)
    (h1dec : pyLines out = as ++ l1 :: bs)
    (h1 : hasMulti l1 = true)
    (hbs : ∀ l ∈ bs, hasMulti l = false)
    (h2dec : pyLines out = cs ++ l2 :: ds)
    (h2m : hasMulti l2 = false) (h2b : hasBinary l2 = true)
    (hds : ∀ l ∈ ds, hasMulti l = true ∨ hasBinary l = false) :
    buildSuccessResponse out =
      ⟨200, some "success", none, some (pyStrip out),
        some (extractVal l1), some (extractVal l2), true⟩ := by
  have hf : (interpretLines (pyLines out)).1 = some (extractVal l1) := by
    rw [h1dec]
    exact interpretLines_fst_last as bs l1 h1 hbs
  have hs : (interpretLines (pyLines out)).2 = some (extractVal l2) := by
    rw [h2dec]
    exact interpretLines_snd_last cs ds l2 h2m h2b hds
  have h : interpretLines (pyLines out) =
      (some (extractVal l1), some (extractVal l2)) :=
    Prod.ext_iff.mpr ⟨hf, hs⟩
  simp [buildSuccessResponse, h]

/-- C4 witness: the spec's example stdout with a trailing newline, and
the same two marker lines in the opposite order. -/
theorem interpreter_marker_extraction_witness :
    buildSuccessResponse
        "Multi classification result: synthetic\nBinary classification result: fake\n" =
      ⟨200, some "success", none,
        some "Multi classification result: synthetic\nBinary classification result: fake",
        some "synthetic", some "fake", true⟩ ∧
    buildSuccessResponse
        "Binary classification result: fake\nMulti classification result: synthetic" =
      ⟨200, some "success", none,
        some "Binary classification result: fake\nMulti classification result: synthetic",
        some "synthetic", some "fake", true⟩ := by
  constructor
  · have h := interpreter_marker_extraction
      "Multi classification result: synthetic\nBinary classification result: fake\n"
      [] ["Binary classification result: fake"]
      ["Multi classification result: synthetic"] []
      "Multi classification result: synthetic"
      "Binary classification result: fake"
      (by decide) (by decide) (by decide) (by decide) (by decide) (by decide)
      (by simp)
    rw [h]
    decide
  · have h := interpreter_marker_extraction
      "Binary classification result: fake\nMulti classification result: synthetic"
      ["Binary classification result: fake"] [] []
      ["Multi classification result: synthetic"]
      "Multi classification result: synthetic"
      "Binary classification result: fake"
      (by decide) (by decide) (by simp) (by decide) (by decide) (by decide)
      (by decide)
    rw [h]
    decide

/-- C4 counterexample: on the spec's example stdout followed by a
newline, both markers are extracted but `raw_output` is the stripped
text, not the full original stdout, because the code stores
`output.strip()`. -/
theorem interpreter_raw_not_verbatim :
    (buildSuccessResponse
        "Multi classification result: synthetic\nBinary classification result: fake\n").multi
        = some "synthetic" ∧
    (buildSuccessResponse
        "Multi classification result: synthetic\nBinary classification result: fake\n").binary
        = some "fake" ∧
    (buildSuccessResponse
        "Multi classification result: synthetic\nBinary classification result: fake\n").raw_output
      ≠ some "Multi classification result: synthetic\nBinary classification result: fake\n" := by
  decide

/-! ## Claim C9 -/

/-- C9: interpretation never fails a request — the success body is
built for every stdout with HTTP 200 and `'status': 'success'`, the raw
(stripped) output is always carried, a missing marker just leaves the
corresponding field unset, and a zero-exit evaluation always produces
this success body. -/
theorem interpreter_total_graceful :
    (∀ out : String,
      (buildSuccessResponse out).status = 200 ∧
      (buildSuccessResponse out).statusLabel = some "success" ∧
      (buildSuccessResponse out).error = none ∧
      (buildSuccessResponse out).raw_output = some (pyStrip out) ∧
      ((∀ l ∈ pyLines out, hasMulti l = false) →
        (buildSuccessResponse out).multi = none) ∧
      ((∀ l ∈ pyLines out, hasBinary l = false) →
        (buildSuccessResponse out).binary = none)) ∧
    (∀ (env : Env) (path : String) (c : Bool) (fs : List String)
        (tr : List Ev) (out err : String),
      env.evalRun path = EvalResult.completed 0 out err →
      (afterAcquire env path c fs tr).outcome =
        Outcome.resp (buildSuccessResponse out)) := by
  constructor
  · intro out
    refine ⟨rfl, rfl, rfl, rfl, ?_, ?_⟩
    · intro h
      show (interpretLines (pyLines out)).1 = none
      exact foldl_parseStep_fst (pyLines out) (none, none) h
    · intro h
      show (interpretLines (pyLines out)).2 = none
      exact foldl_parseStep_snd (pyLines out) (none, none)
        (fun l hl => Or.inr (h l hl))
  · intro env path c fs tr out err hev
    simp only [afterAcquire, hev, run_evaluation]
    norm_num

/-- C9 witness: a marker-free stdout on a concrete successful run. -/
theorem interpreter_total_graceful_witness :
    (buildSuccessResponse "nothing to see").multi = none ∧
    (buildSuccessResponse "nothing to see").binary = none ∧
    (afterAcquire
        ⟨true, [], 0, "rid", fun s => s, fun s => s,
          fun _ => HttpResp.timeout,
          fun _ => EvalResult.completed 0 "nothing to see" ""⟩
        "p" true ["p"] []).outcome =
      Outcome.resp (buildSuccessResponse "nothing to see") := by
  refine ⟨(interpreter_total_graceful.1 "nothing to see").2.2.2.2.1 (by decide),
    (interpreter_total_graceful.1 "nothing to see").2.2.2.2.2 (by decide),
    interpreter_total_graceful.2 _ "p" true ["p"] [] "nothing to see" "" rfl⟩

/-! ## Claim C10 -/

/-- C10: in the parsing loop, a line containing both markers populates
only `multi_classification` (the `elif` skips the binary branch), and
among several lines with the same marker the last one wins. -/
theorem interpreter_elif_and_last_wins :
    (∀ (xs : List String) (l : String), hasMulti l = true →
      (interpretLines (xs ++ [l])).1 = some (extractVal l)) ∧
    (∀ (xs : List String) (l : String), hasMulti l = false →
      hasBinary l = true →
      (interpretLines (xs ++ [l])).2 = some (extractVal l)) ∧
    (∀ l : String, hasMulti l = true → hasBinary l = true →
      interpretLines [l] = (some (extractVal l), none)) := by
  refine ⟨?_, ?_, ?_⟩
  · intro xs l h
    unfold interpretLines
    rw [List.foldl_append, List.foldl_cons, List.foldl_nil,
      parseStep_multi _ _ h]
  · intro xs l hm hb
    unfold interpretLines
    rw [List.foldl_append, List.foldl_cons, List.foldl_nil,
      parseStep_binary _ _ hm hb]
  · intro l hm hb
    unfold interpretLines
    rw [List.foldl_cons, List.foldl_nil, parseStep_multi _ _ hm]

/-- C10 witness: last marker line wins for both fields, and a
both-marker line fills only the multi-class field. -/
theorem interpreter_elif_and_last_wins_witness :
    (interpretLines ["Multi classification result: a",
      "Multi classification result: b"]).1 = some "b" ∧
    (interpretLines ["Binary classification result: a",
      "Binary classification result: b"]).2 = some "b" ∧
    interpretLines
        ["Multi classification result and Binary classification result: v"] =
      (some "v", none) := by
  refine ⟨?_, ?_, ?_⟩
  · show (interpretLines (["Multi classification result: a"] ++
      ["Multi classification result: b"])).1 = some "b"
    rw [interpreter_elif_and_last_wins.1 _ _ (by decide)]
    decide
  · show (interpretLines (["Binary classification result: a"] ++
      ["Binary classification result: b"])).2 = some "b"
    rw [interpreter_elif_and_last_wins.2.1 _ _ (by decide) (by decide)]
    decide
  · rw [interpreter_elif_and_last_wins.2.2 _ (by decide) (by decide)]
    decide

/-! ## Claim C1 -/

/-- C1 (amended): for every request in which an owned artifact was
successfully created — a saved upload or a successfully downloaded
file — and in which the evaluation step does not raise an exception
that escapes `run_evaluation`'s handlers, the artifact is deleted
exactly once before the response is returned, whether the evaluation
succeeded, failed, or timed out (interpretation runs after the cleanup
and cannot fail).  The uncatchable-escape path excluded by the
hypothesis skips the inline cleanup: see the counterexample. -/
theorem owned_artifact_deleted_once (env : Env) (req : Req)
    (hesc : ∀ q : String, env.evalRun q ≠ EvalResult.baseEscape) :
    (∀ f : String, req.contentLength ≤ MAX_CONTENT_LENGTH →
      env.modelExists = true → req.audio = some f → f ≠ "" →
      allowed_file f = true →
      delCount (uniquePath env f) (evaluate_audio env req).trace = 1 ∧
      uniquePath env f ∉ (evaluate_audio env req).fs ∧
      (evaluate_audio env req).outcome ≠ Outcome.uncaught) ∧
    (∀ (url p : String) (fs' : List String) (tr' : List Ev),
      req.contentLength ≤ MAX_CONTENT_LENGTH → env.modelExists = true →
      req.audio = none → req.isJson = true → req.jsonUrl = some url →
      download_audio_from_url env url env.fs0 [] = ((some p, none), fs', tr') →
      delCount p (evaluate_audio env req).trace = 1 ∧
      p ∉ (evaluate_audio env req).fs ∧
      (evaluate_audio env req).outcome ≠ Outcome.uncaught) := by
  constructor
  · intro f hcl hm ha hne hok
    rw [evaluate_audio_upload env req f hcl hm ha hne hok]
    obtain ⟨hfs, htr, hout⟩ := afterAcquire_cleanup env (uniquePath env f)
      (insertPath (uniquePath env f) env.fs0)
      [Ev.fileSaved (uniquePath env f), Ev.acquiredOwned (uniquePath env f)]
      (run_evaluation_ne_none _ (hesc _)) (mem_insertPath_self _ _)
    refine ⟨?_, ?_, hout⟩
    · rw [htr, delCount_append]
      simp [delCount, isDeleteOf, List.countP_cons]
    · rw [hfs]
      exact not_mem_removePath_self _ _
  · intro url p fs' tr' hcl hm ha hj hu hd
    rw [evaluate_audio_url_success env req url p fs' tr' hcl hm ha hj hu hd]
    obtain ⟨hp, hdc, _⟩ := download_success env url env.fs0 fs' [] tr' p hd
    obtain ⟨hfs, htr, hout⟩ := afterAcquire_cleanup env p fs'
      (tr' ++ [Ev.acquiredOwned p])
      (run_evaluation_ne_none _ (hesc _)) hp
    refine ⟨?_, ?_, hout⟩
    · rw [htr, delCount_append, delCount_append, hdc p]
      simp [delCount, isDeleteOf, List.countP_cons]
    · rw [hfs]
      exact not_mem_removePath_self _ _

/-- C1 witness: a saved upload under a successful zero-exit evaluation,
and a downloaded file under a failing evaluation, are each deleted
exactly once. -/
theorem owned_artifact_deleted_once_witness :
    (delCount (uniquePath (baseEnv (EvalResult.completed 0 "" "")) "a.wav")
        (evaluate_audio (baseEnv (EvalResult.completed 0 "" ""))
          (upReq "a.wav")).trace = 1 ∧
      uniquePath (baseEnv (EvalResult.completed 0 "" "")) "a.wav" ∉
        (evaluate_audio (baseEnv (EvalResult.completed 0 "" ""))
          (upReq "a.wav")).fs) ∧
    (delCount "uploads/0_rid_song.mp3"
        (evaluate_audio (dlEnv (HttpResp.ok none [100])
          (EvalResult.completed 2 "" "e")) urlReq).trace = 1 ∧
      "uploads/0_rid_song.mp3" ∉
        (evaluate_audio (dlEnv (HttpResp.ok none [100])
          (EvalResult.completed 2 "" "e")) urlReq).fs) := by
  constructor
  · have h := (owned_artifact_deleted_once
      (baseEnv (EvalResult.completed 0 "" "")) (upReq "a.wav")
      (by intro q h; exact EvalResult.noConfusion h)).1 "a.wav"
      (by decide) rfl rfl (by decide) (by decide)
    exact ⟨h.1, h.2.1⟩
  · have h := (owned_artifact_deleted_once
      (dlEnv (HttpResp.ok none [100]) (EvalResult.completed 2 "" "e")) urlReq
      (by intro q h; exact EvalResult.noConfusion h)).2
      "http://x/song.mp3" "uploads/0_rid_song.mp3"
      ["uploads/0_rid_song.mp3"]
      [Ev.downloadStarted "http://x/song.mp3",
        Ev.fileCreated "uploads/0_rid_song.mp3"]
      (by decide) rfl rfl rfl rfl (by decide)
    exact ⟨h.1, h.2.1⟩

/-- C1 counterexample: when the evaluator raises an exception that
`except Exception` cannot catch (e.g. `KeyboardInterrupt` during the
subprocess wait), the owned artifact is acquired but never deleted —
the inline cleanup of lines 264-270 is skipped and no handler deletes
the file — so deletion does not happen on every exit path. -/
theorem owned_artifact_leak_on_escape :
    Ev.acquiredOwned (uniquePath (baseEnv EvalResult.baseEscape) "a.wav") ∈
      (evaluate_audio (baseEnv EvalResult.baseEscape) (upReq "a.wav")).trace ∧
    delCount (uniquePath (baseEnv EvalResult.baseEscape) "a.wav")
      (evaluate_audio (baseEnv EvalResult.baseEscape) (upReq "a.wav")).trace = 0 ∧
    uniquePath (baseEnv EvalResult.baseEscape) "a.wav" ∈
      (evaluate_audio (baseEnv EvalResult.baseEscape) (upReq "a.wav")).fs ∧
    (evaluate_audio (baseEnv EvalResult.baseEscape) (upReq "a.wav")).outcome =
      Outcome.uncaught := by
  decide

/-! ## Claim C2 -/

/-- C2: a request that resolves to an `ExistingPath` input (JSON body
with a `filename` naming an existing file) never deletes anything —
the filesystem is returned unchanged and the trace contains no
deletion, whatever the evaluation outcome, including an uncatchable
escape. -/
theorem existing_path_never_deleted (env : Env) (req : Req) (f : String)
    (ha : req.audio = none) (hj : req.isJson = true)
    (hu : req.jsonUrl = none) (hf : req.jsonFilename = some f)
    (hex : f ∈ env.fs0) :
    (evaluate_audio env req).fs = env.fs0 ∧
    ∀ p : String, delCount p (evaluate_audio env req).trace = 0 := by
  unfold evaluate_audio
  by_cases hcl : req.contentLength > MAX_CONTENT_LENGTH
  · rw [if_pos hcl]
    exact ⟨rfl, fun p => rfl⟩
  · rw [if_neg hcl]
    by_cases hm : env.modelExists = false
    · rw [if_pos hm]
      exact ⟨rfl, fun p => rfl⟩
    · rw [if_neg hm, ha]
      simp only []
      rw [if_pos hj, hu]
      simp only []
      rw [hf]
      simp only []
      rw [if_pos hex]
      obtain ⟨h1, h2⟩ := afterAcquire_nocleanup env f env.fs0 []
      exact ⟨h1, fun p => (h2 p).trans rfl⟩

/-- C2 witness: a concrete existing file survives a failing run. -/
theorem existing_path_never_deleted_witness :
    (evaluate_audio
        { baseEnv (EvalResult.completed 1 "" "err") with fs0 := ["data/x.wav"] }
        (fileReq "data/x.wav")).fs = ["data/x.wav"] ∧
    delCount "data/x.wav"
      (evaluate_audio
        { baseEnv (EvalResult.completed 1 "" "err") with fs0 := ["data/x.wav"] }
        (fileReq "data/x.wav")).trace = 0 := by
  have h := existing_path_never_deleted
    { baseEnv (EvalResult.completed 1 "" "err") with fs0 := ["data/x.wav"] }
    (fileReq "data/x.wav") "data/x.wav" rfl rfl rfl rfl (by decide)
  exact ⟨h.1, h.2 "data/x.wav"⟩

/-! ## Claim C3 -/

/-- C3: an upload whose body exceeds the 100 MiB cap is rejected with
the 413 FileTooLarge body before any acquisition, and a download whose
chunks sum to more than the cap fails with the FileTooLarge message
while leaving no new file on disk — the partial file is removed the
moment the running total exceeds the cap. -/
theorem size_cap_enforced :
    (∀ (env : Env) (req : Req), MAX_CONTENT_LENGTH < req.contentLength →
      evaluate_audio env req =
        ⟨Outcome.resp ⟨413, none, some "File too large. Maximum size is 100MB.",
          none, none, none, false⟩, env.fs0, []⟩) ∧
    (∀ (env : Env) (url : String) (fs : List String) (tr : List Ev)
        (clen : Option Nat) (chunks : List Nat),
      env.httpGet url = HttpResp.ok clen chunks →
      allowed_file (effectiveUrlName env url) = true →
      MAX_CONTENT_LENGTH < chunks.sum →
      ∃ (fs' : List String) (tr' : List Ev),
        download_audio_from_url env url fs tr =
          ((none, some "File too large. Maximum size is 100MB."), fs', tr') ∧
        ∀ q ∈ fs', q ∈ fs) := by
  constructor
  · intro env req h
    unfold evaluate_audio
    rw [if_pos h]
  · intro env url fs tr clen chunks hg hok hsum
    unfold download_audio_from_url
    simp only []
    rw [if_neg (by simp [hok]), hg]
    simp only []
    by_cases hcl : clen.getD 0 > MAX_CONTENT_LENGTH
    · rw [if_pos hcl]
      exact ⟨fs, _, rfl, fun q hq => hq⟩
    · rw [if_neg hcl]
      rw [streamLoop_overflow _ chunks 0 _ _ (Nat.zero_le _) (by omega)]
      refine ⟨_, _, rfl, ?_⟩
      intro q hq
      rw [mem_removePath] at hq
      obtain ⟨hq1, hq2⟩ := hq
      rw [mem_insertPath] at hq1
      rcases hq1 with rfl | hq1
      · exact absurd rfl hq2
      · exact hq1

/-- C3 witness: a concrete oversized upload is rejected with 413, and
a concrete oversized download fails with the FileTooLarge message and
leaves the (initially empty) disk empty. -/
theorem size_cap_enforced_witness :
    evaluate_audio (baseEnv (EvalResult.completed 0 "" ""))
        ⟨MAX_CONTENT_LENGTH + 1, some "a.wav", false, none, none⟩ =
      ⟨Outcome.resp ⟨413, none, some "File too large. Maximum size is 100MB.",
        none, none, none, false⟩, [], []⟩ ∧
    (download_audio_from_url
        (dlEnv (HttpResp.ok none [8192, MAX_CONTENT_LENGTH])
          (EvalResult.completed 0 "" ""))
        "http://x/song.mp3" [] []).1 =
      (none, some "File too large. Maximum size is 100MB.") ∧
    (download_audio_from_url
        (dlEnv (HttpResp.ok none [8192, MAX_CONTENT_LENGTH])
          (EvalResult.completed 0 "" ""))
        "http://x/song.mp3" [] []).2.1 = [] := by
  refine ⟨?_, ?_, ?_⟩
  · exact size_cap_enforced.1 (baseEnv (EvalResult.completed 0 "" ""))
      ⟨MAX_CONTENT_LENGTH + 1, some "a.wav", false, none, none⟩ (by decide)
  · obtain ⟨fs', tr', heq, _⟩ := size_cap_enforced.2
      (dlEnv (HttpResp.ok none [8192, MAX_CONTENT_LENGTH])
        (EvalResult.completed 0 "" ""))
      "http://x/song.mp3" [] [] none [8192, MAX_CONTENT_LENGTH]
      rfl (by decide) (by simp [MAX_CONTENT_LENGTH])
    rw [heq]
  · obtain ⟨fs', tr', heq, hsub⟩ := size_cap_enforced.2
      (dlEnv (HttpResp.ok none [8192, MAX_CONTENT_LENGTH])
        (EvalResult.completed 0 "" ""))
      "http://x/song.mp3" [] [] none [8192, MAX_CONTENT_LENGTH]
      rfl (by decide) (by simp [MAX_CONTENT_LENGTH])
    rw [heq]
    exact List.eq_nil_iff_forall_not_mem.mpr
      (fun q hq => (List.not_mem_nil q) (hsub q hq))

/-! ## Claim C5 -/

/-- C5 (amended): a non-zero exit code yields the error message
`"Evaluation failed: " ++ stderr` — carrying the stderr but not the
exit code, which is only logged — with a single evaluator launch (no
retry); the duration is measured on this path (line 262 runs) but the
failure body omits `processing_time_seconds`, which only the success
body carries. -/
theorem eval_failure_no_retry (env : Env) (path : String) (c : Bool)
    (fs : List String) (tr : List Ev) (rc : Int) (out err : String)
    (hrc : rc ≠ 0) (hev : env.evalRun path = EvalResult.completed rc out err) :
    (afterAcquire env path c fs tr).outcome =
      Outcome.resp (serverErr ("Evaluation failed: " ++ err)) ∧
    evalCount path (afterAcquire env path c fs tr).trace =
      evalCount path tr + 1 ∧
    Ev.durationMeasured ∈ (afterAcquire env path c fs tr).trace ∧
    (serverErr ("Evaluation failed: " ++ err)).hasProcessingTime = false := by
  have hre : run_evaluation (env.evalRun path) =
      some (none, some ("Evaluation failed: " ++ err)) := by
    rw [hev]
    simp [run_evaluation, hrc]
  unfold afterAcquire
  rw [hre]
  by_cases hcl : (c && decide (path ∈ fs)) = true
  · refine ⟨?_, ?_, ?_, rfl⟩ <;>
      simp [hcl, evalCount_append, evalCount, isEvalOf, List.countP_cons]
  · refine ⟨?_, ?_, ?_, rfl⟩ <;>
      simp [hcl, evalCount_append, evalCount, isEvalOf, List.countP_cons]

/-- C5 witness: a concrete exit-code-2 run. -/
theorem eval_failure_no_retry_witness :
    (afterAcquire (baseEnv (EvalResult.completed 2 "" "boom")) "p" true ["p"]
        []).outcome = Outcome.resp (serverErr "Evaluation failed: boom") ∧
    evalCount "p" (afterAcquire (baseEnv (EvalResult.completed 2 "" "boom"))
        "p" true ["p"] []).trace = 1 ∧
    Ev.durationMeasured ∈ (afterAcquire
        (baseEnv (EvalResult.completed 2 "" "boom")) "p" true ["p"] []).trace := by
  have h := eval_failure_no_retry (baseEnv (EvalResult.completed 2 "" "boom"))
    "p" true ["p"] [] 2 "" "boom" (by decide) rfl
  exact ⟨h.1, (h.2.1).trans rfl, h.2.2.1⟩

/-- C5 counterexample: exit codes 2 and 3 with identical stderr produce
identical run results, so the returned error cannot carry the exit
code; and although the duration is measured on this failure path, the
failure body has no `processing_time_seconds` field. -/
theorem exit_code_not_returned :
    afterAcquire (baseEnv (EvalResult.completed 2 "" "boom")) "p" true ["p"] [] =
      afterAcquire (baseEnv (EvalResult.completed 3 "" "boom")) "p" true ["p"] [] ∧
    (afterAcquire (baseEnv (EvalResult.completed 2 "" "boom")) "p" true ["p"]
        []).outcome = Outcome.resp (serverErr "Evaluation failed: boom") ∧
    (serverErr "Evaluation failed: boom").hasProcessingTime = false ∧
    Ev.durationMeasured ∈ (afterAcquire
        (baseEnv (EvalResult.completed 2 "" "boom")) "p" true ["p"] []).trace := by
  decide

/-! ## Claim C6 -/

/-- C6: when the model file is absent, every request that reaches the
handler fails immediately with the 500 ModelUnavailable body, the
filesystem is untouched and the trace is empty — no acquisition work
of any kind is performed. -/
theorem model_checked_before_acquisition (env : Env) (req : Req)
    (hm : env.modelExists = false)
    (hcl : req.contentLength ≤ MAX_CONTENT_LENGTH) :
    evaluate_audio env req =
      ⟨Outcome.resp (serverErr ("Model file not found: " ++ MODEL_PATH)),
        env.fs0, []⟩ ∧
    (serverErr ("Model file not found: " ++ MODEL_PATH)).status = 500 := by
  refine ⟨?_, rfl⟩
  unfold evaluate_audio
  rw [if_neg (by omega), if_pos hm]

/-- C6 witness: a concrete upload request against a missing model. -/
theorem model_checked_before_acquisition_witness :
    evaluate_audio { baseEnv (EvalResult.completed 0 "" "") with modelExists := false }
        (upReq "a.wav") =
      ⟨Outcome.resp (serverErr "Model file not found: model.pth"), [], []⟩ := by
  have h := model_checked_before_acquisition
    { baseEnv (EvalResult.completed 0 "" "") with modelExists := false }
    (upReq "a.wav") rfl (by decide)
  rw [h.1]
  rfl

/-! ## Claim C7 -/

/-- C7 (amended): `allowed_file` accepts exactly the filenames whose
part after the last dot, compared case-insensitively, is in
{wav, mp3, flac, ogg, m4a}; in the upload branch every other
*non-empty* filename is rejected with the InvalidFileType message that
enumerates the allowed set, and every accepted filename is saved.  An
empty filename is rejected earlier with NoFileSelected, not
InvalidFileType: see the counterexample. -/
theorem extension_gate (env : Env) (req : Req) :
    (∀ f : String, allowed_file f = specAccepts f) ∧
    joinComma ALLOWED_EXTENSIONS = "wav, mp3, flac, ogg, m4a" ∧
    (∀ f : String, req.contentLength ≤ MAX_CONTENT_LENGTH →
      env.modelExists = true → req.audio = some f → f ≠ "" →
      allowed_file f = false →
      evaluate_audio env req =
        ⟨Outcome.resp (clientErr ("Invalid file type. Allowed: "
          ++ joinComma ALLOWED_EXTENSIONS)), env.fs0, []⟩) ∧
    (∀ f : String, req.contentLength ≤ MAX_CONTENT_LENGTH →
      env.modelExists = true → req.audio = some f → f ≠ "" →
      allowed_file f = true →
      Ev.fileSaved (uniquePath env f) ∈ (evaluate_audio env req).trace) := by
  refine ⟨allowed_file_eq_specAccepts, by decide, ?_, ?_⟩
  · intro f hcl hm ha hne hbad
    exact evaluate_audio_badtype env req f hcl hm ha hne hbad
  · intro f hcl hm ha hne hok
    rw [evaluate_audio_upload env req f hcl hm ha hne hok]
    exact afterAcquire_trace_mem _ _ _ _ _ _
      (List.mem_cons_self _ _)

/-- C7 witness: `test.WAV` is accepted and saved; `noext` is rejected
with the enumerating message. -/
theorem extension_gate_witness :
    allowed_file "test.WAV" = specAccepts "test.WAV" ∧
    Ev.fileSaved (uniquePath (baseEnv (EvalResult.completed 0 "" "")) "test.WAV") ∈
      (evaluate_audio (baseEnv (EvalResult.completed 0 "" ""))
        (upReq "test.WAV")).trace ∧
    evaluate_audio (baseEnv (EvalResult.completed 0 "" "")) (upReq "noext") =
      ⟨Outcome.resp (clientErr ("Invalid file type. Allowed: "
        ++ joinComma ALLOWED_EXTENSIONS)), [], []⟩ := by
  refine ⟨(extension_gate (baseEnv (EvalResult.completed 0 "" ""))
    (upReq "test.WAV")).1 "test.WAV", ?_, ?_⟩
  · exact (extension_gate (baseEnv (EvalResult.completed 0 "" ""))
      (upReq "test.WAV")).2.2.2 "test.WAV" (by decide) rfl rfl (by decide)
      (by decide)
  · exact (extension_gate (baseEnv (EvalResult.completed 0 "" ""))
      (upReq "noext")).2.2.1 "noext" (by decide) rfl rfl (by decide) (by decide)

/-- C7 counterexample: the empty filename has no allowed extension,
yet the upload branch answers NoFileSelected, whose message does not
mention file types — not InvalidFileType as the claim requires for
every rejected filename. -/
theorem empty_filename_not_invalid_type :
    allowed_file "" = false ∧
    (evaluate_audio (baseEnv (EvalResult.completed 0 "" "")) (upReq "")).outcome =
      Outcome.resp (clientErr "No file selected") ∧
    pyIn "Invalid file type" "No file selected" = false := by
  decide

/-! ## Claim C8 -/

/-- C8 (amended): the handler resolves multiply-populated inputs by
fixed precedence instead of rejecting them — a request with an `audio`
file is handled identically whether or not JSON fields are present,
and a JSON request with a `url` is handled identically whether or not
a `filename` is also present. -/
theorem variant_precedence (env : Env) (req : Req) :
    (∀ f : String, req.audio = some f →
      evaluate_audio env req =
        evaluate_audio env ⟨req.contentLength, some f, false, none, none⟩) ∧
    (∀ url : String, req.audio = none → req.jsonUrl = some url →
      evaluate_audio env req =
        evaluate_audio env ⟨req.contentLength, none, req.isJson, some url, none⟩) := by
  constructor
  · intro f ha
    obtain ⟨cl, audio, j, u, fn⟩ := req
    simp only [Req.audio] at ha
    subst ha
    rfl
  · intro url ha hu
    obtain ⟨cl, audio, j, u, fn⟩ := req
    simp only [Req.audio] at ha
    simp only [Req.jsonUrl] at hu
    subst ha
    subst hu
    rfl

/-- C8 witness: a JSON body with both `url` and `filename` behaves
exactly as the same body without the `filename`. -/
theorem variant_precedence_witness :
    evaluate_audio (dlEnv (HttpResp.ok none [100])
        (EvalResult.completed 0 "out" "")) bothReq =
      evaluate_audio (dlEnv (HttpResp.ok none [100])
        (EvalResult.completed 0 "out" ""))
        ⟨10, none, true, some "http://x/song.mp3", none⟩ := by
  exact (variant_precedence (dlEnv (HttpResp.ok none [100])
    (EvalResult.completed 0 "out" "")) bothReq).2 "http://x/song.mp3" rfl rfl

/-- C8 counterexample: a request populating both the `url` and
`filename` variants is not rejected as a client error — it is
processed: the download is issued and the request completes with the
200 success body. -/
theorem multiple_variants_processed :
    (evaluate_audio (dlEnv (HttpResp.ok none [100])
        (EvalResult.completed 0 "out" "")) bothReq).outcome =
      Outcome.resp (buildSuccessResponse "out") ∧
    (buildSuccessResponse "out").status = 200 ∧
    Ev.downloadStarted "http://x/song.mp3" ∈
      (evaluate_audio (dlEnv (HttpResp.ok none [100])
        (EvalResult.completed 0 "out" "")) bothReq).trace := by
  decide

end LibriSeVoc
